/-
Verification of the scheduler-refactor distributed cron platform.

The Go source is shallowly embedded in Lean: each Go function relevant to
the checked properties is translated into a pure Lean function over explicit
state.  Channels become lists, `sync.Map` / etcd key spaces become
association lists keyed by strings, unix timestamps become `Int`, and
third-party collaborators (the cron parser, JSON decoding) are passed in as
function parameters, so every theorem quantifies over their behaviour.
-/
import Mathlib

set_option autoImplicit false
set_option maxRecDepth 8192

namespace SchedulerRefactor

/-! ## Association-list maps

The repository keeps its in-memory tables in Go maps (`map[string]*T`,
`sync.Map`) and its persistent data in the etcd key space.  Both are
modelled as association lists with at most one binding per key; `putKey`
overwrites an existing binding in place and `dropKey` removes it. -/

/-- Look up the binding of `k` in an association list. -/
def lookupKey {α : Type} (l : List (String × α)) (k : String) : Option α :=
  match l with
  | [] => none
  | (k0, v0) :: rest => if k0 = k then some v0 else lookupKey rest k

/-- Overwrite the binding of `k`, or append it when absent. -/
def putKey {α : Type} (l : List (String × α)) (k : String) (v : α) :
    List (String × α) :=
  match l with
  | [] => [(k, v)]
  | (k0, v0) :: rest =>
      if k0 = k then (k, v) :: rest else (k0, v0) :: putKey rest k v

/-- Remove the binding of `k` when present. -/
def dropKey {α : Type} (l : List (String × α)) (k : String) :
    List (String × α) :=
  match l with
  | [] => []
  | (k0, v0) :: rest =>
      if k0 = k then rest else (k0, v0) :: dropKey rest k

theorem lookupKey_putKey_self {α : Type} (l : List (String × α)) (k : String)
    (v : α) : lookupKey (putKey l k v) k = some v := by
  induction l with
  | nil => simp [putKey, lookupKey]
  | cons hd tl ih =>
      obtain ⟨k0, v0⟩ := hd
      by_cases h : k0 = k
      · simp [putKey, h, lookupKey]
      · simp [putKey, h, lookupKey, ih]

theorem lookupKey_putKey_ne {α : Type} (l : List (String × α)) (k k2 : String)
    (v : α) (h : k ≠ k2) : lookupKey (putKey l k v) k2 = lookupKey l k2 := by
  induction l with
  | nil => simp [putKey, lookupKey, h]
  | cons hd tl ih =>
      obtain ⟨k0, v0⟩ := hd
      by_cases h0 : k0 = k
      · subst h0
        simp [putKey, lookupKey, h]
      · simp only [putKey, if_neg h0, lookupKey]
        by_cases h2 : k0 = k2
        · simp [h2]
        · simp [h2, ih]

theorem lookupKey_dropKey_self {α : Type} (l : List (String × α)) (k : String)
    (hl : l.Pairwise (fun a b => a.1 ≠ b.1)) :
    lookupKey (dropKey l k) k = none := by
  induction l with
  | nil => simp [dropKey, lookupKey]
  | cons hd tl ih =>
      obtain ⟨k0, v0⟩ := hd
      rw [List.pairwise_cons] at hl
      by_cases h : k0 = k
      · subst h
        simp only [dropKey, if_pos rfl]
        clear ih
        induction tl with
        | nil => simp [lookupKey]
        | cons hd2 tl2 ih2 =>
            obtain ⟨k1, v1⟩ := hd2
            have hne : k1 ≠ k0 := fun he => (hl.1 (k1, v1) (by simp) he.symm)
            simp only [lookupKey, if_neg hne]
            exact ih2 ⟨fun p hp he => hl.1 p (List.mem_cons_of_mem _ hp) he,
              (List.pairwise_cons.mp hl.2).2⟩
      · simp only [dropKey, if_neg h, lookupKey, if_neg h]
        exact ih hl.2

theorem lookupKey_dropKey_ne {α : Type} (l : List (String × α)) (k k2 : String)
    (h : k ≠ k2) : lookupKey (dropKey l k) k2 = lookupKey l k2 := by
  induction l with
  | nil => simp [dropKey, lookupKey]
  | cons hd tl ih =>
      obtain ⟨k0, v0⟩ := hd
      by_cases h0 : k0 = k
      · subst h0
        simp [dropKey, lookupKey, h]
      · simp only [dropKey, if_neg h0, lookupKey]
        by_cases h2 : k0 = k2
        · simp [h2]
        · simp [h2, ih]

theorem lookupKey_mem {α : Type} {l : List (String × α)} {k : String} {v : α}
    (h : lookupKey l k = some v) : (k, v) ∈ l := by
  induction l with
  | nil => simp [lookupKey] at h
  | cons hd tl ih =>
      obtain ⟨k0, v0⟩ := hd
      simp only [lookupKey] at h
      by_cases h0 : k0 = k
      · rw [if_pos h0] at h
        injection h with hv
        subst h0
        subst hv
        simp
      · rw [if_neg h0] at h
        exact List.mem_cons_of_mem _ (ih h)

/-! ## Data model (`common` package)

Direct translations of the structs in `common`.  `time.Time` values that the
code only ever compares or converts with `Unix()` are carried as unix-second
`Int`s. -/

/-- `common.Job` (`common` package). -/
structure Job where
  name : String
  command : String
  cronExpr : String
  timeout : Int
  disabled : Bool
  createdAt : Int
  updatedAt : Int
deriving Repr, DecidableEq

/-- Job event kinds: `common.JobEventSave` and `common.JobEventDelete`. -/
inductive JobEventType where
  | save
  | delete
deriving Repr, DecidableEq

/-- `common.JobEvent`. -/
structure JobEvent where
  eventType : JobEventType
  job : Job
deriving Repr, DecidableEq

/-- `common.JobExecuteInfo`: the cancel handles play no part in any
property we check and are omitted. -/
structure JobExecuteInfo where
  job : Job
  planTime : Int
  realTime : Int
deriving Repr, DecidableEq

/-- `common.JobExecuteResult`. -/
structure JobExecuteResult where
  jobName : String
  output : String
  error : String
  startTime : Int
  endTime : Int
  exitCode : Int
  isTimeout : Bool
deriving Repr, DecidableEq

/-- `common.JobLog`. -/
structure JobLog where
  jobName : String
  command : String
  output : String
  error : String
  planTime : Int
  scheduleTime : Int
  startTime : Int
  endTime : Int
  exitCode : Int
  isTimeout : Bool
  workerIp : String
deriving Repr, DecidableEq

/-- `common.JobSaveDir`. -/
def jobSaveDir : String := "/cron/jobs/"

/-- `common.JobLockDir`. -/
def jobLockDir : String := "/cron/lock/"

/-- `common.DefaultPage`. -/
def defaultPage : Int := 1

/-- `common.DefaultPageSize`. -/
def defaultPageSize : Int := 10

/-- `common.MaxPageSize`. -/
def maxPageSize : Int := 100

/-- The sentinel errors of `common` (`errors.go`) that the checked code
paths return. -/
inductive CommonErr where
  | errJobNotFound
  | errLockAlreadyAcquired
deriving Repr, DecidableEq

/-! ## etcd gateway model (`pkg/etcd`)

The etcd store is modelled as an association list from keys to entries that
record the value, the revision at which the key was created (`0` never
occurs on a live key, matching the etcd `CreateRevision`), and the lease the
key is bound to (`0` = no lease).  Granting a lease hands out
`nextLeaseId` and bumps it, so lease ids are fresh by construction. -/

/-- One live key-value entry of the modelled etcd store. -/
structure KVEntry where
  value : String
  createRevision : Nat
  leaseId : Nat
deriving Repr, DecidableEq

/-- The modelled state of the etcd cluster as seen through `etcd.Client`. -/
structure EtcdState where
  store : List (String × KVEntry)
  leases : List (Nat × Int)
  nextLeaseId : Nat
  revision : Nat
deriving Repr, DecidableEq

/-- `CreateRevision(key)` as used in the CAS transaction: `0` when the key
does not exist. -/
def createRevisionOf (s : EtcdState) (key : String) : Nat :=
  match lookupKey s.store key with
  | some e => e.createRevision
  | none => 0

/-- `lease.Grant(ttl)`: hand out a fresh lease id. -/
def grantLease (s : EtcdState) (ttl : Int) : EtcdState × Nat :=
  ({ s with leases := (s.nextLeaseId, ttl) :: s.leases,
            nextLeaseId := s.nextLeaseId + 1 },
   s.nextLeaseId)

/-- `etcd.Client.TryAcquireLock` (`pkg/etcd/client.go`): grant a lease,
then run a single transaction that puts the key bound to the lease if
`CreateRevision(key) == 0` and otherwise fails with
`ErrLockAlreadyAcquired`. -/
def TryAcquireLock (s : EtcdState) (lockKey : String) (ttl : Int) :
    EtcdState × Except CommonErr Nat :=
  let granted := grantLease s ttl
  let s1 := granted.1
  let leaseId := granted.2
  if createRevisionOf s1 lockKey = 0 then
    ({ s1 with store := putKey s1.store lockKey
                  ⟨"", s1.revision + 1, leaseId⟩,
               revision := s1.revision + 1 },
     Except.ok leaseId)
  else
    (s1, Except.error CommonErr.errLockAlreadyAcquired)

/-- Well-formedness of the etcd model: live keys carry a nonzero
create-revision (as in etcd) and every granted lease id is below the
fresh-id counter. -/
def EtcdWF (s : EtcdState) : Prop :=
  (∀ p ∈ s.store, (p.2 : KVEntry).createRevision ≠ 0) ∧
  (∀ q ∈ s.leases, (q.1 : Nat) < s.nextLeaseId)

instance (s : EtcdState) : Decidable (EtcdWF s) := by
  unfold EtcdWF
  infer_instance

/-! ## Worker scheduler (`worker/scheduler`)

The compiled cron expression type of `gorhill/cronexpr` is a type parameter
`E` together with the third-party functions `parse` (`cronexpr.Parse`,
`none` on a parse error) and `next` (`Expression.Next`), so the theorems
hold for every behaviour of the library. -/

/-- `scheduler.JobSchedulePlan`. -/
structure JobSchedulePlan (E : Type) where
  job : Job
  expr : E
  nextTime : Int
deriving Repr, DecidableEq

/-- `Scheduler.handleJobEvent` (`worker/scheduler/scheduler.go`), acting on
the plan table.  On Save of a disabled job the entry is deleted when
present (deleting an absent key is the identity, as in Go); on Save of an
enabled job the cron expression is parsed and on success the plan is
overwritten with `nextTime = next expr now`; on a parse error the function
logs and returns with the table untouched; on Delete the entry is
deleted. -/
def handleJobEvent {E : Type} (parse : String → Option E)
    (next : E → Int → Int) (now : Int)
    (jobPlans : List (String × JobSchedulePlan E)) (event : JobEvent) :
    List (String × JobSchedulePlan E) :=
  match event.eventType with
  | JobEventType.save =>
      let job := event.job
      if job.disabled then
        dropKey jobPlans job.name
      else
        match parse job.cronExpr with
        | none => jobPlans
        | some expr =>
            putKey jobPlans job.name ⟨job, expr, next expr now⟩
  | JobEventType.delete => dropKey jobPlans event.job.name

/-- `Scheduler.handleJobResult` (`worker/scheduler/scheduler.go`): deletes
the in-flight entry and writes a line to the zap logger only — it appends
nothing to the log sink. -/
def handleJobResult (jobExecuting : List (String × JobExecuteInfo))
    (result : JobExecuteResult) : List (String × JobExecuteInfo) :=
  dropKey jobExecuting result.jobName

/-! ## Executor (`worker/executor`) -/

/-- The failure cases of `cmd.Run()` that `ExecuteJob` distinguishes:
`exec.ExitError` (child exited nonzero, with its exit code) or any other
error, carrying its `Error()` text. -/
inductive RunError where
  | exitError (code : Int)
  | otherError (msg : String)
deriving Repr, DecidableEq

/-- `err.Error()` for the modelled run errors (for an `exec.ExitError` the
Go text is "exit status N"). -/
def RunError.descr : RunError → String
  | RunError.exitError code => "exit status " ++ toString code
  | RunError.otherError msg => msg

/-- What happened to one subprocess run: the captured stdout buffer,
the error of `cmd.Run()` (if any), and whether `ctx.Err()` was
`context.DeadlineExceeded` when the run returned (only possible when the
job has a positive timeout). -/
structure RunOutcome where
  stdout : String
  runErr : Option RunError
  deadlineExceeded : Bool
deriving Repr, DecidableEq

/-- The `common.JobExecuteResult` that `Executor.ExecuteJob`
(`worker/executor/executor.go`) builds for one finished run: on failure
with the deadline exceeded it reports the fixed timeout error with exit
code -1; on an `exec.ExitError` it captures the exit code of the child; on
other failure it reports exit code -1 with the underlying error text; on
success the exit code is 0. -/
def executeJobResult (job : Job) (startTime endTime : Int) (o : RunOutcome) :
    JobExecuteResult :=
  let base : JobExecuteResult :=
    { jobName := job.name, output := o.stdout, error := "",
      startTime := startTime, endTime := endTime, exitCode := 0,
      isTimeout := false }
  match o.runErr with
  | some e =>
      if o.deadlineExceeded then
        { base with error := "job execution timed out", isTimeout := true,
                    exitCode := -1 }
      else
        match e with
        | RunError.exitError code =>
            { base with error := (RunError.exitError code).descr,
                        exitCode := code }
        | RunError.otherError msg =>
            { base with error := msg, exitCode := -1 }
  | none => base

/-- The buffered result channel of the executor (`jobResults`). -/
structure ExecutorState where
  jobResults : List JobExecuteResult
deriving Repr, DecidableEq

/-- Completion of `Executor.ExecuteJob`: every path of the spawned
goroutine ends in `e.jobResults <- result`, so exactly one result is
appended to the channel. -/
def executeJobFinish (st : ExecutorState) (job : Job)
    (startTime endTime : Int) (o : RunOutcome) : ExecutorState :=
  { st with jobResults :=
      st.jobResults ++ [executeJobResult job startTime endTime o] }

/-- `executor.BuildJobLog` (`worker/executor/executor.go`); `workerId` is
`config.GlobalConfig.WorkerID`. -/
def BuildJobLog (workerId : String) (result : JobExecuteResult)
    (info : JobExecuteInfo) : JobLog :=
  { jobName := result.jobName
    command := info.job.command
    output := result.output
    error := result.error
    planTime := info.planTime
    scheduleTime := info.realTime
    startTime := result.startTime
    endTime := result.endTime
    exitCode := result.exitCode
    isTimeout := result.isTimeout
    workerIp := workerId }

/-! ## Worker main result pipeline (`cmd/worker/main.go`)

`handleExecuteResults` ranges over the same executor result channel that
the select of the scheduler loop also receives from, so each result is
consumed by exactly one of the two. -/

/-- One iteration of `handleExecuteResults` (`cmd/worker/main.go`): look
the job up in the in-flight table of the scheduler and, when present, build a
`JobLog` for the log sink; the in-flight table is not modified. -/
def handleExecuteResultsStep (workerId : String)
    (jobExecuting : List (String × JobExecuteInfo))
    (result : JobExecuteResult) : Option JobLog :=
  match lookupKey jobExecuting result.jobName with
  | some info => some (BuildJobLog workerId result info)
  | none => none

/-- The two goroutines that receive from the result channel of the executor. -/
inductive ResultConsumer where
  | schedulerLoop
  | resultHandler
deriving Repr, DecidableEq

/-- Delivery of one execution result in the worker process: the channel
hands the result to exactly one consumer.  Returns the in-flight table
after delivery together with the `JobLog` records appended to the log
sink for this result. -/
def deliverResult (workerId : String)
    (jobExecuting : List (String × JobExecuteInfo))
    (result : JobExecuteResult) (c : ResultConsumer) :
    List (String × JobExecuteInfo) × List JobLog :=
  match c with
  | ResultConsumer.schedulerLoop =>
      (handleJobResult jobExecuting result, [])
  | ResultConsumer.resultHandler =>
      (jobExecuting,
       match handleExecuteResultsStep workerId jobExecuting result with
       | some lg => [lg]
       | none => [])

/-! ## Master job registry (`master/jobmgr`) and its API caller (`master/api`)

Jobs are stored serialized under `/cron/jobs/<name>`; JSON
marshal/unmarshal of `common.Job` round-trips, so the stored bytes are
identified with the `Job` itself. -/

/-- The `/cron/jobs/` key space of etcd as the master registry sees it. -/
abbrev JobStore := List (String × Job)

/-- `JobManager.SaveJob` (`master/jobmgr/jobmgr.go`): stamp `createdAt`
with the current unix time when it is zero, always set `updatedAt`, then
put the job at `/cron/jobs/<name>`.  Returns the new store and the job as
written (the Go code mutates `job` in place before marshalling). -/
def SaveJob (now : Int) (store : JobStore) (job : Job) : JobStore × Job :=
  let job1 := if job.createdAt = 0 then { job with createdAt := now } else job
  let job2 := { job1 with updatedAt := now }
  (putKey store (jobSaveDir ++ job2.name) job2, job2)

/-- `common.ApiParamError`. -/
def apiParamError : Int := 1001

/-- `Server.saveJob` (`master/api/job_handler.go`): reject a job with an
empty name, command or cron expression (and one whose cron expression the
six-field robfig parser, passed here as `cronParse`, refuses), then
delegate to `JobManager.SaveJob`.  An error is the `(code, message)` pair
given to `failure`. -/
def serverSaveJob (cronParse : String → Bool) (now : Int) (store : JobStore)
    (job : Job) : Except (Int × String) (JobStore × Job) :=
  if job.name = "" then
    Except.error (apiParamError, "job name is required")
  else if job.command = "" then
    Except.error (apiParamError, "job command is required")
  else if job.cronExpr = "" then
    Except.error (apiParamError, "job cron expression is required")
  else if cronParse job.cronExpr = false then
    Except.error (apiParamError, "invalid cron expression")
  else
    Except.ok (SaveJob now store job)

/-- `JobManager.GetJob` (`master/jobmgr/jobmgr.go`): read
`/cron/jobs/<name>`; `ErrJobNotFound` when the key count is zero. -/
def GetJob (store : JobStore) (jobName : String) : Except CommonErr Job :=
  match lookupKey store (jobSaveDir ++ jobName) with
  | none => Except.error CommonErr.errJobNotFound
  | some job => Except.ok job

/-- `JobManager.DisableJob` (`master/jobmgr/jobmgr.go`): get the job, set
`Disabled = true` and a fresh `updatedAt`, save it back. -/
def DisableJob (now : Int) (store : JobStore) (jobName : String) :
    Except CommonErr JobStore :=
  match GetJob store jobName with
  | Except.error e => Except.error e
  | Except.ok job =>
      Except.ok (SaveJob now store
        { job with disabled := true, updatedAt := now }).1

/-- `JobManager.EnableJob` (`master/jobmgr/jobmgr.go`): get the job, clear
`Disabled` and set a fresh `updatedAt`, save it back. -/
def EnableJob (now : Int) (store : JobStore) (jobName : String) :
    Except CommonErr JobStore :=
  match GetJob store jobName with
  | Except.error e => Except.error e
  | Except.ok job =>
      Except.ok (SaveJob now store
        { job with disabled := false, updatedAt := now }).1

/-! ## Log store (`pkg/mongodb`) and log manager (`master/logmgr`)

The `job_logs` collection is the list of committed `JobLog` records.
`FindJobLogs` filters by job name (an empty filter matches everything),
sorts by start time descending and applies skip/limit, as the mongo query
options do. -/

/-- The name filter of `FindJobLogs`/`CountJobLogs`: an empty `jobName`
leaves the bson filter empty, matching every record. -/
def logFilterByName (jobName : String) (logs : List JobLog) : List JobLog :=
  if jobName = "" then logs
  else logs.filter (fun lg => lg.jobName = jobName)

/-- The `SetSort(startTime: -1)` option: order by start time descending. -/
def sortByStartTimeDesc (logs : List JobLog) : List JobLog :=
  logs.mergeSort (fun a b => b.startTime ≤ a.startTime)

/-- `mongodb.Client.FindJobLogs` (`pkg/mongodb/client.go`): filter by job
name, sort by start time descending, skip and limit. -/
def FindJobLogs (logs : List JobLog) (jobName : String) (skip limit : Int) :
    List JobLog :=
  ((sortByStartTimeDesc (logFilterByName jobName logs)).drop skip.toNat).take
    limit.toNat

/-- `mongodb.Client.CountJobLogs` (`pkg/mongodb/client.go`). -/
def CountJobLogs (logs : List JobLog) (jobName : String) : Int :=
  (logFilterByName jobName logs).length

/-- `LogManager.ListLogs` (`master/logmgr/logmgr.go`): clamp page and page
size, then fetch with `skip = (page-1)*pageSize`, `limit = pageSize` and
count the filtered collection. -/
def ListLogs (logs : List JobLog) (jobName : String) (page pageSize : Int) :
    List JobLog × Int :=
  let page := if page ≤ 0 then defaultPage else page
  let pageSize := if pageSize ≤ 0 then defaultPageSize else pageSize
  let pageSize := if pageSize > maxPageSize then maxPageSize else pageSize
  let skip := (page - 1) * pageSize
  let limit := pageSize
  (FindJobLogs logs jobName skip limit, CountJobLogs logs jobName)

/-- The page clamp exactly as the spec words it: `page <= 0` becomes 1. -/
def specClampPage (page : Int) : Int :=
  if page ≤ 0 then 1 else page

/-- The page-size clamp exactly as the spec words it: nonpositive becomes
the default 10, above the maximum becomes 100. -/
def specClampPageSize (pageSize : Int) : Int :=
  if pageSize ≤ 0 then 10 else if pageSize > 100 then 100 else pageSize

/-- Modelled from the spec: `mongodb.Client.FindJobLogsSince` is invoked
by `LogManager.getLogsSince` but its implementation is not among the
provided sources; the spec (§4.9) says statistics "scans logs with
`startAt >= now - days`", so it is modelled as the records passing the
name filter whose start time is at least the cutoff. -/
def FindJobLogsSince (logs : List JobLog) (jobName : String)
    (timestamp : Int) : List JobLog :=
  (logFilterByName jobName logs).filter
    (fun lg => timestamp ≤ lg.startTime)

/-- The statistics record that `GetLogStatistics` assembles (the Go code
returns it as a string-keyed map). -/
structure LogStats where
  totalCount : Nat
  successCount : Nat
  failCount : Nat
  timeoutCount : Nat
  avgDuration : ℚ
  period : Int
deriving Repr, DecidableEq

/-- One iteration of the aggregation loop of `GetLogStatistics`: bump the
success or fail counter by the exit code, the timeout counter by the
flag, and accumulate the duration `endTime - startTime`. -/
def statsFold (acc : Nat × Nat × Nat × Int) (lg : JobLog) :
    Nat × Nat × Nat × Int :=
  ((if lg.exitCode = 0 then acc.1 + 1 else acc.1),
   (if lg.exitCode = 0 then acc.2.1 else acc.2.1 + 1),
   (if lg.isTimeout then acc.2.2.1 + 1 else acc.2.2.1),
   acc.2.2.2 + (lg.endTime - lg.startTime))

/-- `LogManager.GetLogStatistics` (`master/logmgr/logmgr.go`): default the
window to 7 days when nonpositive, fetch the logs since `now - days`
(`AddDate(0,0,-days)`, modelled as `days * 86400` seconds), aggregate the
counters, and compute the average duration as total duration over count
(0 when there are no logs; the Go float64 division is modelled as exact
rational division). -/
def GetLogStatistics (allLogs : List JobLog) (jobName : String)
    (days now : Int) : LogStats :=
  let days := if days ≤ 0 then 7 else days
  let startTime := now - days * 86400
  let logs := FindJobLogsSince allLogs jobName startTime
  let acc := logs.foldl statsFold (0, 0, 0, 0)
  { totalCount := logs.length
    successCount := acc.1
    failCount := acc.2.1
    timeoutCount := acc.2.2.1
    avgDuration :=
      if logs.length > 0 then (acc.2.2.2 : ℚ) / (logs.length : ℚ) else 0
    period := days }

/-! ## Worker job cache (`worker/jobmgr`) -/

/-- The two etcd watch event kinds the cache handles. -/
inductive WatchEventType where
  | put
  | delete
deriving Repr, DecidableEq

/-- A watch delta on the `/cron/jobs/` key space. -/
structure WatchEvent where
  eventType : WatchEventType
  key : String
  value : String
deriving Repr, DecidableEq

/-- The job name extracted from the watched key, as `handleWatchEvent`
slices it: the part after the `/cron/jobs/` directory, or the empty
string when the key is no longer than the directory. -/
def watchKeyJobName (event : WatchEvent) : String :=
  if jobSaveDir.length < event.key.length then
    event.key.drop jobSaveDir.length
  else ""

/-- `JobManager.handleWatchEvent` (`worker/jobmgr/jobmgr.go`): on Put,
decode the value (`decode` stands for `json.Unmarshal` into a job) and on
success upsert the cache under the name of the decoded job and yield a Save
event, on a decode error yield nothing and leave the cache alone; on
Delete, `LoadAndDelete` the entry and yield a Delete event carrying the
previously cached job, or nothing when the name was absent.  Returns the
new cache and the yielded event. -/
def handleWatchEvent (decode : String → Option Job)
    (jobsCache : List (String × Job)) (event : WatchEvent) :
    List (String × Job) × Option JobEvent :=
  match event.eventType with
  | WatchEventType.put =>
      match decode event.value with
      | none => (jobsCache, none)
      | some job =>
          (putKey jobsCache job.name job,
           some ⟨JobEventType.save, job⟩)
  | WatchEventType.delete =>
      match lookupKey jobsCache (watchKeyJobName event) with
      | some job =>
          (dropKey jobsCache (watchKeyJobName event),
           some ⟨JobEventType.delete, job⟩)
      | none => (jobsCache, none)

/-! ## Log sink (`worker/logsink`) -/

/-- The capacity of the log sink ingress channel
(`make(chan *common.JobLog, 1000)`). -/
def logChanCapacity : Nat := 1000

/-- `LogSink.Append` (`worker/logsink/logsink.go`): a select with a
default branch — enqueue when the channel has free capacity, otherwise
record a warning and drop the log, leaving the channel as it was. -/
def logSinkAppend (logChan : List JobLog) (jobLog : JobLog) : List JobLog :=
  if logChan.length < logChanCapacity then logChan ++ [jobLog] else logChan

/-! ## Concrete sample values

Closed witnesses and counterexamples below evaluate the embedded
operations on these inputs. -/

/-- A well-formed enabled job, as in the end-to-end scenario of the spec. -/
def jobG : Job :=
  { name := "greet", command := "echo hi", cronExpr := "* * * * * *",
    timeout := 10, disabled := false, createdAt := 1, updatedAt := 1 }

/-- An in-flight entry for `jobG`. -/
def infoG : JobExecuteInfo := { job := jobG, planTime := 100, realTime := 101 }

/-- A successful execution result for `jobG`. -/
def resG : JobExecuteResult :=
  { jobName := "greet", output := "hi\n", error := "", startTime := 101,
    endTime := 102, exitCode := 0, isTimeout := false }

/-- A job with a parseable cron expression, planned as "j". -/
def jobJ : Job :=
  { name := "j", command := "echo j", cronExpr := "* * * * * *",
    timeout := 0, disabled := false, createdAt := 1, updatedAt := 1 }

/-- The same job re-saved with an unparseable cron expression. -/
def jobBad : Job :=
  { name := "j", command := "echo j", cronExpr := "not a cron",
    timeout := 0, disabled := false, createdAt := 1, updatedAt := 2 }

/-- A job submission with an empty name. -/
def jobNoName : Job :=
  { name := "", command := "echo hi", cronExpr := "* * * * * *",
    timeout := 0, disabled := false, createdAt := 0, updatedAt := 0 }

/-- A fresh job submission (zero timestamps). -/
def jobNew : Job :=
  { name := "greet", command := "echo hi", cronExpr := "* * * * * *",
    timeout := 10, disabled := false, createdAt := 0, updatedAt := 0 }

/-- A committed log record of a successful run. -/
def lgW : JobLog :=
  { jobName := "greet", command := "echo hi", output := "hi\n", error := "",
    planTime := 100, scheduleTime := 101, startTime := 101, endTime := 102,
    exitCode := 0, isTimeout := false, workerIp := "w1" }

/-! ## C3 — lock acquisition -/

/-- C3: `TryAcquireLock(key, ttl)` atomically creates the key bound to a
fresh lease and returns that lease id when the key does not exist (its
create revision is 0), and fails with `ErrLockAlreadyAcquired` without
touching the store when the key already exists. -/
theorem claim_C3_tryAcquireLock (s : EtcdState) (lockKey : String)
    (ttl : Int) (hwf : EtcdWF s) :
    (lookupKey s.store lockKey = none →
      (TryAcquireLock s lockKey ttl).2 = Except.ok s.nextLeaseId ∧
      (∀ q ∈ s.leases, (q.1 : Nat) ≠ s.nextLeaseId) ∧
      lookupKey (TryAcquireLock s lockKey ttl).1.store lockKey =
        some ⟨"", s.revision + 1, s.nextLeaseId⟩ ∧
      (s.nextLeaseId, ttl) ∈ (TryAcquireLock s lockKey ttl).1.leases) ∧
    (lookupKey s.store lockKey ≠ none →
      (TryAcquireLock s lockKey ttl).2 =
        Except.error CommonErr.errLockAlreadyAcquired ∧
      (TryAcquireLock s lockKey ttl).1.store = s.store) := by
  constructor
  · intro habs
    refine ⟨?_, ?_, ?_, ?_⟩
    · simp [TryAcquireLock, grantLease, createRevisionOf, habs]
    · intro q hq he
      exact absurd (he ▸ hwf.2 q hq) (lt_irrefl _)
    · simp [TryAcquireLock, grantLease, createRevisionOf, habs,
        lookupKey_putKey_self]
    · simp [TryAcquireLock, grantLease, createRevisionOf, habs]
  · intro hsome
    obtain ⟨e, he⟩ := Option.ne_none_iff_exists'.mp hsome
    have hcr : e.createRevision ≠ 0 := hwf.1 (lockKey, e) (lookupKey_mem he)
    constructor
    · simp [TryAcquireLock, grantLease, createRevisionOf, he, hcr]
    · simp [TryAcquireLock, grantLease, createRevisionOf, he, hcr]

/-- C3 witness: acquiring an absent lock key on a concrete state succeeds
with the fresh lease id 1; acquiring a held key fails with the
already-acquired error. -/
theorem claim_C3_witness :
    (TryAcquireLock ⟨[], [], 1, 0⟩ "/cron/lock/greet" 5).2 = Except.ok 1 ∧
    (TryAcquireLock ⟨[("/cron/lock/greet", ⟨"", 3, 7⟩)], [(7, 5)], 8, 3⟩
        "/cron/lock/greet" 5).2 =
      Except.error CommonErr.errLockAlreadyAcquired :=
  ⟨((claim_C3_tryAcquireLock ⟨[], [], 1, 0⟩ "/cron/lock/greet" 5
      (by decide)).1 rfl).1,
   ((claim_C3_tryAcquireLock
      ⟨[("/cron/lock/greet", ⟨"", 3, 7⟩)], [(7, 5)], 8, 3⟩
      "/cron/lock/greet" 5 (by decide)).2 (by decide)).1⟩

/-! ## C9 — log sink ingress -/

/-- C9: `LogSink.Append` never blocks: with free capacity the log is
enqueued at the back of the ingress channel, and on a full channel the
log is dropped with the channel contents unchanged. -/
theorem claim_C9_logSinkAppend (logChan : List JobLog) (jobLog : JobLog) :
    (logChan.length < logChanCapacity →
      logSinkAppend logChan jobLog = logChan ++ [jobLog]) ∧
    (logChan.length = logChanCapacity →
      logSinkAppend logChan jobLog = logChan) := by
  refine ⟨fun h => ?_, fun h => ?_⟩
  · simp [logSinkAppend, h]
  · simp [logSinkAppend, h]

/-- C9 witness: appending to an empty channel enqueues the log; appending
to a channel holding 1000 logs leaves it unchanged. -/
theorem claim_C9_witness :
    logSinkAppend [] lgW = [lgW] ∧
    logSinkAppend (List.replicate 1000 lgW) lgW = List.replicate 1000 lgW :=
  ⟨(claim_C9_logSinkAppend [] lgW).1 (by simp [logChanCapacity]),
   (claim_C9_logSinkAppend (List.replicate 1000 lgW) lgW).2
     (by simp [logChanCapacity])⟩

/-! ## C8 — worker job cache watch handling -/

/-- C8: a decodable Put upserts the job into the cache and yields a Save
event; a Delete of a cached name removes the entry and yields a Delete
event carrying exactly the previously cached job; a Delete of an absent
name yields no event; an undecodable Put yields no event and leaves the
cache unchanged. -/
theorem claim_C8_handleWatchEvent (decode : String → Option Job)
    (jobsCache : List (String × Job)) (event : WatchEvent)
    (huniq : jobsCache.Pairwise (fun a b => a.1 ≠ b.1)) :
    (∀ job, event.eventType = WatchEventType.put →
      decode event.value = some job →
      handleWatchEvent decode jobsCache event =
        (putKey jobsCache job.name job,
         some ⟨JobEventType.save, job⟩) ∧
      lookupKey (handleWatchEvent decode jobsCache event).1 job.name =
        some job) ∧
    (event.eventType = WatchEventType.put →
      decode event.value = none →
      handleWatchEvent decode jobsCache event = (jobsCache, none)) ∧
    (∀ job, event.eventType = WatchEventType.delete →
      lookupKey jobsCache (watchKeyJobName event) = some job →
      handleWatchEvent decode jobsCache event =
        (dropKey jobsCache (watchKeyJobName event),
         some ⟨JobEventType.delete, job⟩) ∧
      lookupKey (handleWatchEvent decode jobsCache event).1
        (watchKeyJobName event) = none) ∧
    (event.eventType = WatchEventType.delete →
      lookupKey jobsCache (watchKeyJobName event) = none →
      handleWatchEvent decode jobsCache event = (jobsCache, none)) := by
  obtain ⟨ty, key, value⟩ := event
  refine ⟨?_, ?_, ?_, ?_⟩
  · intro job hty hdec
    cases ty with
    | put =>
        constructor
        · simp [handleWatchEvent, hdec]
        · simp [handleWatchEvent, hdec, lookupKey_putKey_self]
    | delete => simp at hty
  · intro hty hdec
    cases ty with
    | put => simp [handleWatchEvent, hdec]
    | delete => simp at hty
  · intro job hty hfound
    cases ty with
    | put => simp at hty
    | delete =>
        constructor
        · simp [handleWatchEvent, hfound]
        · simp [handleWatchEvent, hfound,
            lookupKey_dropKey_self _ _ huniq]
  · intro hty habs
    cases ty with
    | put => simp at hty
    | delete => simp [handleWatchEvent, habs]

/-- C8 witness: on a concrete one-entry cache, a decodable Put of jobG
yields a Save event and caches it, and a Delete of the cached name "j"
yields a Delete event carrying the cached job and empties the entry. -/
theorem claim_C8_witness :
    handleWatchEvent (fun _ => some jobG) [("j", jobJ)]
        ⟨WatchEventType.put, "/cron/jobs/greet", "v"⟩ =
      ([("j", jobJ), ("greet", jobG)],
       some ⟨JobEventType.save, jobG⟩) ∧
    handleWatchEvent (fun _ => none) [("j", jobJ)]
        ⟨WatchEventType.delete, "/cron/jobs/j", ""⟩ =
      ([], some ⟨JobEventType.delete, jobJ⟩) :=
  ⟨by
    have h := ((claim_C8_handleWatchEvent (fun _ => some jobG) [("j", jobJ)]
      ⟨WatchEventType.put, "/cron/jobs/greet", "v"⟩ (by decide)).1 jobG
      rfl rfl).1
    rw [h]
    decide,
   by
    have h := ((claim_C8_handleWatchEvent (fun _ => none) [("j", jobJ)]
      ⟨WatchEventType.delete, "/cron/jobs/j", ""⟩ (by decide)).2.2.1 jobJ
      rfl (by decide)).1
    rw [h]
    decide⟩

/-! ## C2 — Save event with an unparseable cron expression -/

/-- C2 counterexample: in a plan table holding a plan for "j", a Save
event for "j" with `disabled = false` and an unparseable cron expression
leaves the pre-existing plan in the table, so the claimed "that existing
plan is removed" is false on the code. -/
theorem claim_C2_counterexample :
    lookupKey (handleJobEvent (fun _ => (none : Option Unit))
        (fun _ t => t) 0 [("j", ⟨jobJ, (), 5⟩)]
        ⟨JobEventType.save, jobBad⟩) "j" =
      some ⟨jobJ, (), 5⟩ := by
  decide

/-- C2 amended: when the scheduler handles a Save event with
`disabled = false` whose cron expression fails to parse, the plan table
is returned unchanged — no plan is added and a previously present plan
for that job name is kept as it was. -/
theorem claim_C2_parseFailureKeepsPlans {E : Type}
    (parse : String → Option E) (next : E → Int → Int) (now : Int)
    (jobPlans : List (String × JobSchedulePlan E)) (event : JobEvent)
    (hty : event.eventType = JobEventType.save)
    (hdis : event.job.disabled = false)
    (hparse : parse event.job.cronExpr = none) :
    handleJobEvent parse next now jobPlans event = jobPlans := by
  obtain ⟨ty, job⟩ := event
  cases ty with
  | save => simp_all [handleJobEvent]
  | delete => simp at hty

/-- C2 witness: the amended statement on the concrete plan table of the
counterexample. -/
theorem claim_C2_witness :
    handleJobEvent (fun _ => (none : Option Unit)) (fun _ t => t) 0
        [("j", ⟨jobJ, (), 5⟩)] ⟨JobEventType.save, jobBad⟩ =
      [("j", ⟨jobJ, (), 5⟩)] :=
  claim_C2_parseFailureKeepsPlans (fun _ => none) (fun _ t => t) 0
    [("j", ⟨jobJ, (), 5⟩)] ⟨JobEventType.save, jobBad⟩ rfl rfl rfl

/-! ## C1 — result handling in the worker -/

/-- C1: the code violates the claim.  The scheduler loop and the
result-handler goroutine of `cmd/worker/main.go` both receive from the
single result channel of the executor, so each result reaches exactly one of
them: delivered to the scheduler loop it removes the in-flight entry but
appends no record to the log sink, and delivered to the result handler it
appends one record but leaves the in-flight entry in place.  On the
concrete result `resG` for the in-flight job "greet", neither consumer
both removes the entry and emits a record. -/
theorem claim_C1_code_bug :
    ((deliverResult "w1" [("greet", infoG)] resG
        ResultConsumer.schedulerLoop).2 = [] ∧
     lookupKey (deliverResult "w1" [("greet", infoG)] resG
        ResultConsumer.schedulerLoop).1 "greet" = none) ∧
    ((deliverResult "w1" [("greet", infoG)] resG
        ResultConsumer.resultHandler).2 =
       [BuildJobLog "w1" resG infoG] ∧
     lookupKey (deliverResult "w1" [("greet", infoG)] resG
        ResultConsumer.resultHandler).1 "greet" = some infoG) := by
  decide

/-! ## C4 — executor result construction -/

/-- C4: every finished run appends exactly one result to the result
channel, carrying the name of the job; when the run failed and the
deadline of the cancellation scope was exceeded the result reports the
timeout (flag set,
exit code -1, the fixed error text); a child that exited nonzero has its
exit code captured; any other failure yields exit code -1 and the
underlying error text; a clean run yields exit code 0. -/
theorem claim_C4_executeJob (st : ExecutorState) (job : Job)
    (startTime endTime : Int) (o : RunOutcome) :
    (executeJobFinish st job startTime endTime o).jobResults =
      st.jobResults ++ [executeJobResult job startTime endTime o] ∧
    (executeJobResult job startTime endTime o).jobName = job.name ∧
    (o.runErr ≠ none → o.deadlineExceeded = true →
      (executeJobResult job startTime endTime o).isTimeout = true ∧
      (executeJobResult job startTime endTime o).exitCode = -1 ∧
      (executeJobResult job startTime endTime o).error =
        "job execution timed out") ∧
    (∀ code, o.runErr = some (RunError.exitError code) →
      o.deadlineExceeded = false →
      (executeJobResult job startTime endTime o).exitCode = code) ∧
    (∀ msg, o.runErr = some (RunError.otherError msg) →
      o.deadlineExceeded = false →
      (executeJobResult job startTime endTime o).exitCode = -1 ∧
      (executeJobResult job startTime endTime o).error = msg) ∧
    (o.runErr = none →
      (executeJobResult job startTime endTime o).exitCode = 0 ∧
      (executeJobResult job startTime endTime o).isTimeout = false) := by
  obtain ⟨stdout, runErr, dl⟩ := o
  refine ⟨rfl, ?_, ?_, ?_, ?_, ?_⟩
  · cases runErr with
    | none => rfl
    | some e =>
        cases dl <;> cases e <;> rfl
  · intro hne hdl
    cases runErr with
    | none => simp at hne
    | some e =>
        simp only at hdl
        subst hdl
        cases e <;> exact ⟨rfl, rfl, rfl⟩
  · intro code he hdl
    simp only at he hdl
    subst he
    subst hdl
    rfl
  · intro msg he hdl
    simp only at he hdl
    subst he
    subst hdl
    exact ⟨rfl, rfl⟩
  · intro he
    simp only at he
    subst he
    exact ⟨rfl, rfl⟩

/-- C4 witness: on concrete outcomes, a failed run with the deadline
exceeded reports the timeout text, and a child exiting with code 3 has
that code captured. -/
theorem claim_C4_witness :
    (executeJobResult jobG 0 2
        ⟨"", some (RunError.otherError "signal: killed"), true⟩).error =
      "job execution timed out" ∧
    (executeJobResult jobG 0 1
        ⟨"", some (RunError.exitError 3), false⟩).exitCode = 3 :=
  ⟨((claim_C4_executeJob ⟨[]⟩ jobG 0 2
      ⟨"", some (RunError.otherError "signal: killed"), true⟩).2.2.1
      (by simp) rfl).2.2,
   (claim_C4_executeJob ⟨[]⟩ jobG 0 1
      ⟨"", some (RunError.exitError 3), false⟩).2.2.2.1 3 rfl rfl⟩

/-! ## C5 — saving a job through the API -/

/-- C5: the save path rejects a job whose name, command or cron
expression is empty with the parameter-error code; an accepted job is
stored with `createdAt` stamped to the current unix time exactly when it
was zero, `updatedAt` always set to the current unix time, and the job
written at `/cron/jobs/<name>`. -/
theorem claim_C5_saveJob (cronParse : String → Bool) (now : Int)
    (store : JobStore) (job : Job) :
    ((job.name = "" ∨ job.command = "" ∨ job.cronExpr = "") →
      ∃ msg, serverSaveJob cronParse now store job =
        Except.error (apiParamError, msg)) ∧
    (∀ store2 job2,
      serverSaveJob cronParse now store job = Except.ok (store2, job2) →
      job2.name = job.name ∧ job2.command = job.command ∧
      job2.cronExpr = job.cronExpr ∧
      job2.createdAt = (if job.createdAt = 0 then now else job.createdAt) ∧
      job2.updatedAt = now ∧
      lookupKey store2 (jobSaveDir ++ job.name) = some job2) := by
  constructor
  · intro hempty
    by_cases hn : job.name = ""
    · exact ⟨"job name is required", by simp [serverSaveJob, hn]⟩
    · by_cases hc : job.command = ""
      · exact ⟨"job command is required", by simp [serverSaveJob, hn, hc]⟩
      · have he : job.cronExpr = "" := by tauto
        exact ⟨"job cron expression is required",
          by simp [serverSaveJob, hn, hc, he]⟩
  · intro store2 job2 hok
    by_cases hn : job.name = ""
    · simp [serverSaveJob, hn] at hok
    · by_cases hc : job.command = ""
      · simp [serverSaveJob, hn, hc] at hok
      · by_cases he : job.cronExpr = ""
        · simp [serverSaveJob, hn, hc, he] at hok
        · by_cases hp : cronParse job.cronExpr = false
          · simp [serverSaveJob, hn, hc, he, hp] at hok
          · have hok2 : (Except.ok (SaveJob now store job) :
                Except (Int × String) (JobStore × Job)) =
                  Except.ok (store2, job2) := by
              simpa [serverSaveJob, hn, hc, he, hp] using hok
            have hpair : SaveJob now store job = (store2, job2) := by
              cases hok2; rfl
            have hst : store2 = (SaveJob now store job).1 := by
              rw [hpair]
            have hj2 : job2 = (SaveJob now store job).2 := by
              rw [hpair]
            subst hst
            subst hj2
            by_cases hz : job.createdAt = 0 <;>
              simp [SaveJob, hz, lookupKey_putKey_self]

/-- C5 witness: the concrete empty-name job is rejected, and the accepted
fresh job `jobNew` is stored at `/cron/jobs/greet`. -/
theorem claim_C5_witness :
    (∃ msg, serverSaveJob (fun _ => true) 50 [] jobNoName =
      Except.error (apiParamError, msg)) ∧
    lookupKey (SaveJob 50 [] jobNew).1 (jobSaveDir ++ jobNew.name) =
      some (SaveJob 50 [] jobNew).2 :=
  ⟨(claim_C5_saveJob (fun _ => true) 50 [] jobNoName).1 (Or.inl rfl),
   ((claim_C5_saveJob (fun _ => true) 50 [] jobNew).2
      (SaveJob 50 [] jobNew).1 (SaveJob 50 [] jobNew).2 rfl).2.2.2.2.2⟩

/-! ## C10 — enable/disable frame property -/

/-- C10: for a stored job with nonzero `createdAt`, `DisableJob` and
`EnableJob` change only the `Disabled` flag and `updatedAt`: the job read
back afterwards is the stored job with `disabled` set accordingly and
`updatedAt` refreshed, all other fields untouched. -/
theorem claim_C10_enableDisableFrame (now : Int) (store : JobStore)
    (jobName : String) (job : Job)
    (hget : GetJob store jobName = Except.ok job)
    (hname : job.name = jobName)
    (hcreated : job.createdAt ≠ 0) :
    (∃ store2, DisableJob now store jobName = Except.ok store2 ∧
      GetJob store2 jobName = Except.ok
        { job with disabled := true, updatedAt := now }) ∧
    (∃ store3, EnableJob now store jobName = Except.ok store3 ∧
      GetJob store3 jobName = Except.ok
        { job with disabled := false, updatedAt := now }) := by
  have hlook : lookupKey store (jobSaveDir ++ jobName) = some job := by
    unfold GetJob at hget
    cases hfind : lookupKey store (jobSaveDir ++ jobName) with
    | none => rw [hfind] at hget; exact absurd hget (by simp)
    | some j => rw [hfind] at hget; cases hget; rfl
  constructor
  · refine ⟨(SaveJob now store
      { job with disabled := true, updatedAt := now }).1, ?_, ?_⟩
    · unfold DisableJob GetJob
      rw [hlook]
    · unfold GetJob SaveJob
      have hn : ({ job with disabled := true, updatedAt := now } : Job).name
          = job.name := rfl
      simp [hcreated, hn, hname, lookupKey_putKey_self]
  · refine ⟨(SaveJob now store
      { job with disabled := false, updatedAt := now }).1, ?_, ?_⟩
    · unfold EnableJob GetJob
      rw [hlook]
    · unfold GetJob SaveJob
      have hn : ({ job with disabled := false, updatedAt := now } : Job).name
          = job.name := rfl
      simp [hcreated, hn, hname, lookupKey_putKey_self]

/-- C10 witness: disabling and enabling the concrete stored job `jobG`
(createdAt 1) keeps its other fields and toggles only the flag and
`updatedAt`. -/
theorem claim_C10_witness :
    (∃ store2,
      DisableJob 99 [(jobSaveDir ++ "greet", jobG)] "greet" =
        Except.ok store2 ∧
      GetJob store2 "greet" = Except.ok
        { jobG with disabled := true, updatedAt := 99 }) ∧
    (∃ store3,
      EnableJob 99 [(jobSaveDir ++ "greet", jobG)] "greet" =
        Except.ok store3 ∧
      GetJob store3 "greet" = Except.ok
        { jobG with disabled := false, updatedAt := 99 }) :=
  claim_C10_enableDisableFrame 99 [(jobSaveDir ++ "greet", jobG)] "greet"
    jobG rfl rfl (by decide)

/-! ## C6 — log listing pagination -/

/-- C6: `ListLogs` clamps its inputs exactly as the spec words the
clamps — `page <= 0` becomes 1, `pageSize <= 0` becomes the default 10,
`pageSize > 100` becomes 100 — then fetches with
`skip = (page-1) * pageSize` and `limit = pageSize` and pairs the records
with the total count; the empty job name filter selects every log. -/
theorem claim_C6_listLogs (logs : List JobLog) (jobName : String)
    (page pageSize : Int) :
    ListLogs logs jobName page pageSize =
      (FindJobLogs logs jobName
        ((specClampPage page - 1) * specClampPageSize pageSize)
        (specClampPageSize pageSize),
       CountJobLogs logs jobName) ∧
    logFilterByName "" logs = logs := by
  constructor
  · show (FindJobLogs logs jobName _ _, CountJobLogs logs jobName) = _
    unfold specClampPage specClampPageSize defaultPage
      defaultPageSize maxPageSize
    split_ifs <;> first | rfl | (exfalso; omega)
  · simp [logFilterByName]

/-! ## C7 — log statistics -/

theorem foldl_statsFold (logs : List JobLog) (s f t : Nat) (d : Int) :
    logs.foldl statsFold (s, f, t, d) =
      (s + (logs.filter (fun lg => lg.exitCode = 0)).length,
       f + (logs.filter (fun lg => lg.exitCode ≠ 0)).length,
       t + (logs.filter (fun lg => lg.isTimeout)).length,
       d + (logs.map (fun lg => lg.endTime - lg.startTime)).sum) := by
  induction logs generalizing s f t d with
  | nil => simp
  | cons hd tl ih =>
      rw [List.foldl_cons, ih]
      by_cases h0 : hd.exitCode = 0 <;>
        by_cases ht : hd.isTimeout = true <;>
          simp [statsFold, h0, ht, Prod.ext_iff] <;> omega

theorem filter_exitCode_partition (logs : List JobLog) :
    (logs.filter (fun lg => lg.exitCode = 0)).length +
      (logs.filter (fun lg => lg.exitCode ≠ 0)).length = logs.length := by
  induction logs with
  | nil => simp
  | cons hd tl ih =>
      by_cases h : hd.exitCode = 0 <;>
        simp [h, decide_not] at ih ⊢ <;> omega

/-- C7: over the logs with start time at least `now - days` (in seconds),
the statistics report the total as the number of such logs, the success
count as those with exit code 0, the fail count as those with a nonzero
exit code (so success + fail = total), the timeout count as those with
the flag set, and the average duration as the summed `endAt - startAt`
over the total, taken as 0 when there are no logs. -/
theorem claim_C7_statistics (allLogs : List JobLog) (jobName : String)
    (days now : Int) (hdays : 0 < days) :
    (GetLogStatistics allLogs jobName days now).totalCount =
      (FindJobLogsSince allLogs jobName (now - days * 86400)).length ∧
    (GetLogStatistics allLogs jobName days now).successCount =
      ((FindJobLogsSince allLogs jobName (now - days * 86400)).filter
        (fun lg => lg.exitCode = 0)).length ∧
    (GetLogStatistics allLogs jobName days now).failCount =
      ((FindJobLogsSince allLogs jobName (now - days * 86400)).filter
        (fun lg => lg.exitCode ≠ 0)).length ∧
    (GetLogStatistics allLogs jobName days now).successCount +
      (GetLogStatistics allLogs jobName days now).failCount =
      (GetLogStatistics allLogs jobName days now).totalCount ∧
    (GetLogStatistics allLogs jobName days now).timeoutCount =
      ((FindJobLogsSince allLogs jobName (now - days * 86400)).filter
        (fun lg => lg.isTimeout)).length ∧
    (∀ lg ∈ FindJobLogsSince allLogs jobName (now - days * 86400),
      now - days * 86400 ≤ lg.startTime) ∧
    (FindJobLogsSince allLogs jobName (now - days * 86400) = [] →
      (GetLogStatistics allLogs jobName days now).avgDuration = 0) ∧
    (FindJobLogsSince allLogs jobName (now - days * 86400) ≠ [] →
      (GetLogStatistics allLogs jobName days now).avgDuration =
        (((((FindJobLogsSince allLogs jobName (now - days * 86400)).map
            (fun lg => lg.endTime - lg.startTime)).sum : Int) : ℚ) /
          ((FindJobLogsSince allLogs jobName (now - days * 86400)).length :
            ℚ))) := by
  have hnotle : ¬ days ≤ 0 := not_le.mpr hdays
  simp only [GetLogStatistics]
  rw [if_neg hnotle]
  rw [foldl_statsFold]
  simp only [Nat.zero_add, zero_add]
  refine ⟨by trivial, by trivial, by trivial, filter_exitCode_partition _,
    by trivial, ?_, ?_, ?_⟩
  · intro lg hmem
    have := List.of_mem_filter hmem
    simpa using this
  · intro hnil
    simp [hnil]
  · intro hne
    have hlen : 0 < (FindJobLogsSince allLogs jobName
        (now - days * 86400)).length := List.length_pos.mpr hne
    simp [hlen]

/-- C7 witness: the statistics over a concrete singleton collection with
a 7-day window count that log. -/
theorem claim_C7_witness :
    (GetLogStatistics [lgW] "" 7 1000000).totalCount =
      (FindJobLogsSince [lgW] "" (1000000 - 7 * 86400)).length :=
  (claim_C7_statistics [lgW] "" 7 1000000 (by decide)).1

end SchedulerRefactor
